import Mathlib

/-!
# dmallory/books: validation pipeline and request handlers

A shallow embedding of `src/app.go`, `src/dao/book_dao.go` and
`src/models/book.go`.

* Go `string` values are Lean `String`s; `len` is the UTF-8 byte count.
* Go `int` is `Int` (no arithmetic is performed on it, only comparisons).
* `time.Time` is an instant: whole seconds since the Unix epoch plus a
  nanosecond part.
* `bson.ObjectId` is the list of its raw bytes.
-/

namespace Books

/-! ## Library values used by the program -/

/-- An instant as `time.Time` holds it: `sec` whole seconds since
1970-01-01T00:00:00Z (rounded down) and `nsec` nanoseconds into that
second (`nsec < 1000000000`). RFC 3339 timestamps may carry a fraction of
a second, so `nsec` need not be zero for a decoded value. -/
structure Time where
  sec : Int
  nsec : Nat
deriving DecidableEq, Repr

/-- The method `Time.Unix`: seconds elapsed since the epoch, the
nanosecond part dropped. -/
def Time.Unix (t : Time) : Int := t.sec

/-- The nanoseconds from the epoch to the instant. -/
def Time.sinceEpoch (t : Time) : Int := t.sec * 1000000000 + t.nsec

/-- The Unix epoch zero instant, 1970-01-01T00:00:00Z. -/
def Time.epoch : Time := ⟨0, 0⟩

/-- The zero value `time.Time{}`: January 1 of year 1, 00:00:00 UTC. -/
def Time.zero : Time := ⟨-62135596800, 0⟩

/-- The type `bson.ObjectId`: a string of raw bytes, twelve of them for a
valid identifier, none for the zero value. -/
abbrev ObjectId := List Nat

/-- The record type `Book` of `src/models/book.go`. -/
structure Book where
  ID : ObjectId
  Title : String
  Author : String
  Publisher : String
  PublishDate : Time
  Rating : Int
  Status : String
deriving DecidableEq, Repr

/-- The zero value of `Book` (`var item Book`). -/
def Book.zero : Book := ⟨[], "", "", "", Time.zero, 0, ""⟩

/-- The predicate `unicode.IsSpace`: the code points with the Unicode
White_Space property. -/
def isSpace (c : Char) : Bool :=
  let n := c.toNat
  (0x09 ≤ n && n ≤ 0x0D) || n == 0x20 || n == 0x85 || n == 0xA0 || n == 0x1680 ||
  (0x2000 ≤ n && n ≤ 0x200A) || n == 0x2028 || n == 0x2029 || n == 0x202F ||
  n == 0x205F || n == 0x3000

/-- Drop the white space at the end of a list of characters. -/
def trimRight (l : List Char) : List Char :=
  (l.reverse.dropWhile isSpace).reverse

/-- The function `strings.TrimSpace`: the string without its leading and
trailing white space. -/
def TrimSpace (s : String) : String :=
  String.mk (trimRight (s.data.dropWhile isSpace))

/-- The function `strings.Join`: the elements with `sep` between each two. -/
def Join : List String → String → String
  | [], _ => ""
  | [a], _ => a
  | a :: b :: rest, sep => a ++ sep ++ Join (b :: rest) sep

/-- The function `strconv.Itoa`: the decimal text of an integer. -/
def Itoa (n : Int) : String := toString n

/-- The builtin `len` on a string: its length in bytes. -/
def len (s : String) : Nat := s.utf8ByteSize

/-! ## Validation helpers (`src/app.go`) -/

/-- The function `validateId`: the identifier itself when its length is
not 24, the empty string otherwise. -/
def validateId (id : String) : String :=
  if len id ≠ 24 then id else ""

/-- The function `checkRequiredString`. -/
def checkRequiredString (attr : String) (value : String) : String :=
  if TrimSpace value = "" then
    "Value must be present and not empty: " ++ attr
  else ""

/-- The function `checkRangedInt`. -/
def checkRangedInt (attr : String) (value lower upper : Int) : String :=
  if value < lower ∨ value > upper then
    "Value must be in specified range: " ++ attr ++ " (" ++ Itoa lower ++ "-" ++
      Itoa upper ++ ")"
  else ""

/-- The function `checkValidDate`. -/
def checkValidDate (attr : String) (value : Time) : String :=
  if value.Unix = 0 then
    "Value must be a valid date (ISO 8601): " ++ attr
  else ""

/-- The function `contains`: a linear search of `list` for `a`. -/
def contains (a : String) : List String → Bool
  | [] => false
  | b :: rest => if b = a then true else contains a rest

/-- The function `checkEnumeratedString`. -/
def checkEnumeratedString (attr : String) (value : String) (values : List String) :
    String :=
  if ¬ contains value values = true then
    "Value must be in specified set: " ++ attr ++ " (" ++ Join values "," ++ ")"
  else ""

/-- One `if msg := ...; msg != "" { msgs = append(msgs, msg) }` step. -/
def appendIfSet (msgs : List String) (msg : String) : List String :=
  if msg ≠ "" then msgs ++ [msg] else msgs

/-- The function `validateBook`: the six checks in source order, their
messages collected in `msgs` and joined with `"; "`. -/
def validateBook (book : Book) : String :=
  let msgs : List String := []
  let msgs := appendIfSet msgs (checkRequiredString "Title" book.Title)
  let msgs := appendIfSet msgs (checkRequiredString "Author" book.Author)
  let msgs := appendIfSet msgs (checkRequiredString "Publisher" book.Publisher)
  let msgs := appendIfSet msgs (checkValidDate "Publish Date" book.PublishDate)
  let msgs := appendIfSet msgs (checkRangedInt "Rating" book.Rating 1 3)
  let msgs := appendIfSet msgs
    (checkEnumeratedString "Status" book.Status ["CheckedIn", "CheckedOut"])
  if msgs.length > 0 then Join msgs "; " else ""

/-- The violation list as the specification words it: one entry per rule
that fires, in the order Title, Author, Publisher, Publish Date, Rating,
Status, each with its fixed wording. -/
def violations (b : Book) : List String :=
  (if TrimSpace b.Title = "" then ["Value must be present and not empty: Title"] else []) ++
  (if TrimSpace b.Author = "" then ["Value must be present and not empty: Author"] else []) ++
  (if TrimSpace b.Publisher = "" then
    ["Value must be present and not empty: Publisher"] else []) ++
  (if b.PublishDate.Unix = 0 then
    ["Value must be a valid date (ISO 8601): Publish Date"] else []) ++
  (if b.Rating < 1 ∨ b.Rating > 3 then
    ["Value must be in specified range: Rating (1-3)"] else []) ++
  (if b.Status ≠ "CheckedIn" ∧ b.Status ≠ "CheckedOut" then
    ["Value must be in specified set: Status (CheckedIn,CheckedOut)"] else [])

/-! ## Responses (`net/http`, `encoding/json`) -/

/-- A value handed to `json.Marshal` by the handlers: a slice of books
(the nil slice is the empty list: `FindAll` never yields an empty non-nil
slice), one book, or a `map[string]string` literal. -/
inductive Data where
  | books (items : List Book)
  | book (item : Book)
  | strings (entries : List (String × String))
deriving DecidableEq, Repr

/-- The call `json.Marshal(data)` with its error result dropped, as
`returnJson` drops it. A nil slice encodes as the JSON value `null`
(documented behaviour of `encoding/json`); the text of every other value
is left to the encoder `enc`, which the handlers take as a parameter. -/
def Marshal (enc : Data → String) : Data → String
  | .books [] => "null"
  | d => enc d

/-- What an `http.ResponseWriter` has received: the header map, the status
code (0 while none was written) and the body bytes. -/
structure Response where
  header : List (String × String)
  code : Nat
  body : String
deriving DecidableEq, Repr

/-- A fresh writer, as `httptest.NewRecorder()` makes one. -/
def NewRecorder : Response := ⟨[], 0, ""⟩

/-- The call `writer.Header().Set(key, value)`. -/
def Response.Set (w : Response) (key value : String) : Response :=
  { w with header := (key, value) :: w.header.filter (fun kv => kv.1 ≠ key) }

/-- The call `writer.WriteHeader(code)`. -/
def Response.WriteHeader (w : Response) (code : Nat) : Response :=
  { w with code := code }

/-- The call `writer.Write(bytes)`. -/
def Response.Write (w : Response) (bytes : String) : Response :=
  { w with body := w.body ++ bytes }

def StatusOK : Nat := 200
def StatusCreated : Nat := 201
def StatusBadRequest : Nat := 400
def StatusInternalServerError : Nat := 500

/-- The function `returnJson`. -/
def returnJson (enc : Data → String) (writer : Response) (code : Nat) (data : Data) :
    Response :=
  let response := Marshal enc data
  let writer := writer.Set "Content-Type" "application/json"
  let writer := writer.WriteHeader code
  if response = "null" then
    writer
  else
    writer.Write response

/-- The function `returnError`. -/
def returnError (enc : Data → String) (writer : Response) (code : Nat) (message : String) :
    Response :=
  returnJson enc writer code (.strings [("error", message)])

/-- The function `returnInvalidJson`. -/
def returnInvalidJson (enc : Data → String) (writer : Response) : Response :=
  returnError enc writer StatusBadRequest "Invalid JSON"

/-- The function `returnInvalidId`. -/
def returnInvalidId (enc : Data → String) (writer : Response) (id : String) : Response :=
  returnError enc writer StatusBadRequest ("Invalid ID: " ++ id)

/-- The function `returnInvalidData`. -/
def returnInvalidData (enc : Data → String) (writer : Response) (message : String) :
    Response :=
  returnError enc writer StatusBadRequest ("Invalid data: " ++ message)

/-- The function `returnNotFound`. -/
def returnNotFound (enc : Data → String) (writer : Response) (id : String) : Response :=
  returnError enc writer StatusBadRequest ("ID not found: " ++ id)

/-- A Go `error` of the store driver: `mgo.ErrNotFound`, or any other
failure with its text. -/
inductive DbError where
  | ErrNotFound
  | driver (text : String)
deriving DecidableEq, Repr

/-- The method `Error()` of an error value. -/
def DbError.Error : DbError → String
  | .ErrNotFound => "not found"
  | .driver text => text

/-- The function `returnInternalError`. -/
def returnInternalError (enc : Data → String) (writer : Response) (err : DbError) : Response :=
  returnError enc writer StatusInternalServerError err.Error

/-- The function `returnCreated`. -/
def returnCreated (enc : Data → String) (writer : Response) (data : Data) : Response :=
  returnJson enc writer StatusCreated data

/-- The function `returnData`. -/
def returnData (enc : Data → String) (writer : Response) (data : Data) : Response :=
  returnJson enc writer StatusOK data

/-- The function `returnSuccess`. -/
def returnSuccess (enc : Data → String) (writer : Response) : Response :=
  returnJson enc writer StatusOK (.strings [("result", "success")])

/-! ## The store and the repository (`src/dao/book_dao.go`) -/

/-- A call that leaves the handler layer: an operation of the driver on
the collection, or the generation of an identifier. -/
inductive Call where
  | FindAll
  | FindId (id : ObjectId)
  | Insert (item : Book)
  | RemoveId (id : ObjectId)
  | UpdateId (id : ObjectId) (item : Book)
  | NewObjectId
deriving DecidableEq, Repr

/-- The collection `books` of the document store, in its natural order,
together with the list of calls made so far (a record kept for the proofs,
the program has no such list). Documents are kept as the records given to
the driver. -/
structure Store where
  docs : List Book
  calls : List Call
deriving DecidableEq, Repr

/-- The empty collection, nothing called yet. -/
def Store.empty : Store := ⟨[], []⟩

/-- Note one more call. -/
def Store.note (s : Store) (c : Call) : Store :=
  { s with calls := s.calls ++ [c] }

/-- The value of one hexadecimal digit, as `encoding/hex` reads it. -/
def fromHexChar (c : Char) : Option Nat :=
  let n := c.toNat
  if 0x30 ≤ n ∧ n ≤ 0x39 then some (n - 0x30)
  else if 0x61 ≤ n ∧ n ≤ 0x66 then some (n - 0x61 + 10)
  else if 0x41 ≤ n ∧ n ≤ 0x46 then some (n - 0x41 + 10)
  else none

/-- The function `hex.DecodeString`: two digits per byte, `none` for an
odd length or a character that is no hexadecimal digit. -/
def hexDecode : List Char → Option (List Nat)
  | [] => some []
  | [_] => none
  | a :: b :: rest =>
    match fromHexChar a, fromHexChar b, hexDecode rest with
    | some hi, some lo, some bytes => some ((hi * 16 + lo) :: bytes)
    | _, _, _ => none

/-- The function `bson.ObjectIdHex` of the driver: the identifier with the
given hex representation. Its documentation: "Calling this function with
an invalid hex representation will cause a runtime panic"; it panics
unless the string decodes to exactly twelve bytes. `none` is the panic. -/
def ObjectIdHex (s : String) : Option ObjectId :=
  match hexDecode s.data with
  | some d => if d.length = 12 then some d else none
  | none => none

/-- The text of the server's duplicate key report. -/
def duplicateKey : String := "E11000 duplicate key error"

/-- The method `BookDAO.FindAll`. `fault` is the failure the driver meets
during this call (connection lost, timeout), if any. -/
def FindAll (s : Store) (fault : Option String) : (List Book × Option DbError) × Store :=
  let s := s.note .FindAll
  match fault with
  | some text => (([], some (.driver text)), s)
  | none => ((s.docs, none), s)

/-- The method `BookDAO.FindById`: `FindId(bson.ObjectIdHex(id)).One(&item)`.
The result is `none` when `ObjectIdHex` panics; `One` reports
`mgo.ErrNotFound` when no document has the identifier. -/
def FindById (s : Store) (fault : Option String) (id : String) :
    Option ((Book × Option DbError) × Store) :=
  match ObjectIdHex id with
  | none => none
  | some oid =>
    let s := s.note (.FindId oid)
    match fault with
    | some text => some ((Book.zero, some (.driver text)), s)
    | none =>
      match s.docs.find? (fun b => b.ID = oid) with
      | some item => some ((item, none), s)
      | none => some ((Book.zero, some .ErrNotFound), s)

/-- The method `BookDAO.Insert`: the driver appends the document, or
reports a duplicate key when the identifier is taken. -/
def Insert (s : Store) (fault : Option String) (item : Book) : Option DbError × Store :=
  let s := s.note (.Insert item)
  match fault with
  | some text => (some (.driver text), s)
  | none =>
    if s.docs.any (fun b => b.ID = item.ID) then (some (.driver duplicateKey), s)
    else (none, { s with docs := s.docs ++ [item] })

/-- Remove the first document with the identifier. -/
def removeFirst (oid : ObjectId) : List Book → List Book
  | [] => []
  | b :: rest => if b.ID = oid then rest else b :: removeFirst oid rest

/-- Replace the first document with the identifier. -/
def replaceFirst (oid : ObjectId) (item : Book) : List Book → List Book
  | [] => []
  | b :: rest => if b.ID = oid then item :: rest else b :: replaceFirst oid item rest

/-- The method `BookDAO.DeleteById`: `RemoveId(bson.ObjectIdHex(id))`.
The result is `none` when `ObjectIdHex` panics; `RemoveId` reports
`mgo.ErrNotFound` when no document has the identifier. -/
def DeleteById (s : Store) (fault : Option String) (id : String) :
    Option (Option DbError × Store) :=
  match ObjectIdHex id with
  | none => none
  | some oid =>
    let s := s.note (.RemoveId oid)
    match fault with
    | some text => some (some (.driver text), s)
    | none =>
      if s.docs.any (fun b => b.ID = oid) then
        some (none, { s with docs := removeFirst oid s.docs })
      else some (some .ErrNotFound, s)

/-- The method `BookDAO.Update`: `UpdateId(item.ID, &item)`, which replaces
the document with that identifier and reports `mgo.ErrNotFound` when there
is none. -/
def Update (s : Store) (fault : Option String) (item : Book) : Option DbError × Store :=
  let s := s.note (.UpdateId item.ID item)
  match fault with
  | some text => (some (.driver text), s)
  | none =>
    if s.docs.any (fun b => b.ID = item.ID) then
      (none, { s with docs := replaceFirst item.ID item s.docs })
    else (some .ErrNotFound, s)

/-- The function `bson.NewObjectId`: the generator hands out `fresh`. -/
def NewObjectId (s : Store) (fresh : ObjectId) : ObjectId × Store :=
  (fresh, s.note .NewObjectId)

/-! ## Request handlers (`src/app.go`) -/

/-- How a handler call ends: it returns, having written a response, or it
panics. Either way the store is left in some state. -/
inductive Outcome where
  | responded (w : Response) (s : Store)
  | panicked (s : Store)
deriving DecidableEq, Repr

/-- The store after the call. -/
def Outcome.store : Outcome → Store
  | .responded _ s => s
  | .panicked s => s

/-- The function `AllBooks`. -/
def AllBooks (enc : Data → String) (writer : Response) (s : Store) (fault : Option String) :
    Outcome :=
  match FindAll s fault with
  | ((_, some err), s) => .responded (returnInternalError enc writer err) s
  | ((books, none), s) => .responded (returnData enc writer (.books books)) s

/-- The function `FindBook`; `id` is the route variable `params["id"]`. -/
def FindBook (enc : Data → String) (writer : Response) (s : Store) (fault : Option String)
    (id : String) : Outcome :=
  let msg := validateId id
  if msg ≠ "" then
    .responded (returnInvalidId enc writer msg) s
  else
    match FindById s fault id with
    | none => .panicked s
    | some ((_, some _), s) => .responded (returnNotFound enc writer id) s
    | some ((book, none), s) => .responded (returnData enc writer (.book book)) s

/-- The function `CreateBook`. `payload` is what
`json.NewDecoder(request.Body).Decode(&book)` makes of the request body:
the decoded book, or `none` when it returns an error. `fresh` is the
identifier the generator hands out if it is asked. -/
def CreateBook (enc : Data → String) (writer : Response) (s : Store) (fault : Option String)
    (payload : Option Book) (fresh : ObjectId) : Outcome :=
  match payload with
  | none => .responded (returnInvalidJson enc writer) s
  | some book =>
    let msg := validateBook book
    if msg ≠ "" then
      .responded (returnInvalidData enc writer msg) s
    else
      let (id, s) := NewObjectId s fresh
      let book := { book with ID := id }
      match Insert s fault book with
      | (some err, s) => .responded (returnInternalError enc writer err) s
      | (none, s) => .responded (returnCreated enc writer (.book book)) s

/-- The function `UpdateBook`; `payload` as for `CreateBook`. -/
def UpdateBook (enc : Data → String) (writer : Response) (s : Store) (fault : Option String)
    (payload : Option Book) : Outcome :=
  match payload with
  | none => .responded (returnInvalidJson enc writer) s
  | some book =>
    match Update s fault book with
    | (some err, s) => .responded (returnInternalError enc writer err) s
    | (none, s) => .responded (returnSuccess enc writer) s

/-- The function `DeleteBook`; `id` is the route variable `params["id"]`. -/
def DeleteBook (enc : Data → String) (writer : Response) (s : Store) (fault : Option String)
    (id : String) : Outcome :=
  let msg := validateId id
  if msg ≠ "" then
    .responded (returnInvalidId enc writer msg) s
  else
    match DeleteById s fault id with
    | none => .panicked s
    | some (some _, s) => .responded (returnNotFound enc writer id) s
    | some (none, s) => .responded (returnSuccess enc writer) s

/-- A request to one of the five routes of `Router`, with what the call
meets on its way: the decoded body, the identifier the generator would
hand out, the failure of the driver. -/
inductive Request where
  | list (fault : Option String)
  | get (id : String) (fault : Option String)
  | create (payload : Option Book) (fresh : ObjectId) (fault : Option String)
  | replace (payload : Option Book) (fault : Option String)
  | delete (id : String) (fault : Option String)
deriving DecidableEq, Repr

/-- Serve one request with a fresh writer. -/
def serve (enc : Data → String) (s : Store) : Request → Outcome
  | .list fault => AllBooks enc NewRecorder s fault
  | .get id fault => FindBook enc NewRecorder s fault id
  | .create payload fresh fault => CreateBook enc NewRecorder s fault payload fresh
  | .replace payload fault => UpdateBook enc NewRecorder s fault payload
  | .delete id fault => DeleteBook enc NewRecorder s fault id

/-- Serve the requests one after the other; the store at the end. -/
def run (enc : Data → String) (s : Store) : List Request → Store
  | [] => s
  | r :: rest => run enc (serve enc s r).store rest

/-- The constraints of the data model that the validator and the
identifier generator enforce on a record: an identifier, title, author and
publisher non-empty after trimming, a publish date other than the epoch
zero instant, a rating in 1..3, a status of the enumeration. -/
def Checked (b : Book) : Prop :=
  b.ID ≠ [] ∧ TrimSpace b.Title ≠ "" ∧ TrimSpace b.Author ≠ "" ∧ TrimSpace b.Publisher ≠ "" ∧
  b.PublishDate ≠ Time.epoch ∧ 1 ≤ b.Rating ∧ b.Rating ≤ 3 ∧
  (b.Status = "CheckedIn" ∨ b.Status = "CheckedOut")

instance (b : Book) : Decidable (Checked b) := by
  unfold Checked; infer_instance

/-- The invariant of the data model on a stored record: all seven fields
populated, the publish date too (not the zero value a payload without a
date decodes to), and the constraints of the table met. -/
def Constrained (b : Book) : Prop :=
  Checked b ∧ b.PublishDate ≠ Time.zero

instance (b : Book) : Decidable (Constrained b) := by
  unfold Constrained; infer_instance

/-- The book of the test `TestValidCRUD`, 1962-01-01T00:00:00-07:00 being
252435600 seconds before the epoch. -/
def wrinkle : Book :=
  ⟨[], "A Wrinkle In Time", "Madeleine L'Engle", "Farrar, Straus & Giroux",
    ⟨-252435600, 0⟩, 1, "CheckedIn"⟩

/-- The book of the third request of `TestInvalidData`: title, author and
publisher empty, the rest valid. -/
def blankThree : Book := { wrinkle with Title := "", Author := "", Publisher := "" }

/-- An identifier of twelve bytes, the one of `TestInvalidRequests` in hex:
5acb40295843ef00e69e28d2. -/
def sampleId : ObjectId := [90, 203, 64, 41, 88, 67, 239, 0, 230, 158, 40, 210]

/-- A record no validator run would accept: `wrinkle` under the identifier
`sampleId` with a blank title, rating 7 and an unknown status. -/
def unvalidated : Book :=
  { wrinkle with ID := sampleId, Title := " ", Rating := 7, Status := "Lost" }

/-- The book of the update in `TestValidCRUD`, under `sampleId`;
1962-01-02T00:00:00-07:00 is 252349200 seconds before the epoch. -/
def updated : Book :=
  ⟨sampleId, "A Wrinkle In Time 2", "Madeleine L'Engle 2", "Farrar, Straus & Giroux 2",
    ⟨-252349200, 0⟩, 2, "CheckedOut"⟩

/-- What a payload without `publish_date` decodes to: the date is the zero
value of `time.Time`, the other fields as given. -/
def undated : Book := ⟨[], "t", "a", "p", Time.zero, 2, "CheckedOut"⟩

/-- The requests under which the store keeps `Checked`: the generator hands
out a non-empty identifier, and a replace carries a record that is
`Checked` itself (the handler does not look). -/
def Request.regular : Request → Bool
  | .create _ fresh _ => decide (fresh ≠ [])
  | .replace (some b) _ => decide (Checked b)
  | _ => true

/-- A sample encoder, to have one at hand: a string map as a JSON object
without any escaping, a book by its title, a list of books as an array. -/
def sampleEnc : Data → String
  | .strings entries =>
    "\x7b" ++ ",".intercalate (entries.map fun kv => "\"" ++ kv.1 ++ "\":\"" ++ kv.2 ++ "\"")
      ++ "\x7d"
  | .book item => "\"" ++ item.Title ++ "\""
  | .books items => "[" ++ ",".intercalate (items.map fun b => "\"" ++ b.Title ++ "\"") ++ "]"

/-- A 24-character identifier that is no hexadecimal text. -/
def nonHexId : String := "zzzzzzzzzzzzzzzzzzzzzzzz"

/-- The identifier of `TestInvalidRequests`, the hex text of `sampleId`. -/
def sampleHex : String := "5acb40295843ef00e69e28d2"

/-- A collection holding the book of `TestValidCRUD` under `sampleId`,
nothing called yet. -/
def shelf : Store := ⟨[{ wrinkle with ID := sampleId }], []⟩

/-- An instant half a second after the epoch, 1970-01-01T00:00:00.5Z. -/
def halfPastEpoch : Time := ⟨0, 500000000⟩

end Books

namespace Books

/-! ## The validator -/

theorem Join_eq_intercalate (sep : String) (l : List String) :
    Join l sep = sep.intercalate l := by
  have go : ∀ (l : List String) (acc : String),
      String.intercalate.go acc sep l = acc ++ (if l = [] then "" else sep ++ Join l sep) := by
    intro l
    induction l with
    | nil => intro acc; simp [String.intercalate.go]
    | cons a rest ih =>
      intro acc
      cases rest with
      | nil => simp [String.intercalate.go, Join, String.append_assoc]
      | cons b rest =>
        rw [String.intercalate.go, ih]
        simp [Join, String.append_assoc]
  cases l with
  | nil => rfl
  | cons a rest =>
    cases rest with
    | nil => simp [String.intercalate, String.intercalate.go, Join]
    | cons b rest => simp [String.intercalate, go, Join, String.append_assoc]

theorem checkRequiredString_Title (v : String) :
    checkRequiredString "Title" v =
      if TrimSpace v = "" then "Value must be present and not empty: Title" else "" := by
  unfold checkRequiredString; split <;> rfl

theorem checkRequiredString_Author (v : String) :
    checkRequiredString "Author" v =
      if TrimSpace v = "" then "Value must be present and not empty: Author" else "" := by
  unfold checkRequiredString; split <;> rfl

theorem checkRequiredString_Publisher (v : String) :
    checkRequiredString "Publisher" v =
      if TrimSpace v = "" then "Value must be present and not empty: Publisher" else "" := by
  unfold checkRequiredString; split <;> rfl

theorem checkValidDate_PublishDate (t : Time) :
    checkValidDate "Publish Date" t =
      if t.Unix = 0 then "Value must be a valid date (ISO 8601): Publish Date" else "" := by
  unfold checkValidDate; split <;> rfl

theorem checkRangedInt_Rating (v : Int) :
    checkRangedInt "Rating" v 1 3 =
      if v < 1 ∨ v > 3 then "Value must be in specified range: Rating (1-3)" else "" := by
  unfold checkRangedInt; split <;> rfl

theorem checkEnumeratedString_Status (v : String) :
    checkEnumeratedString "Status" v ["CheckedIn", "CheckedOut"] =
      if v ≠ "CheckedIn" ∧ v ≠ "CheckedOut" then
        "Value must be in specified set: Status (CheckedIn,CheckedOut)" else "" := by
  unfold checkEnumeratedString
  by_cases h1 : v = "CheckedIn"
  · subst h1; rfl
  · by_cases h2 : v = "CheckedOut"
    · subst h2; rfl
    · have hc : contains v ["CheckedIn", "CheckedOut"] = false := by
        simp [contains, Ne.symm h1, Ne.symm h2]
      rw [hc, if_pos (by simp), if_pos ⟨h1, h2⟩]
      rfl

theorem appendIfSet_ite (msgs : List String) (c : Prop) [Decidable c] (lit : String)
    (h : lit ≠ "") :
    appendIfSet msgs (if c then lit else "") = msgs ++ (if c then [lit] else []) := by
  unfold appendIfSet
  by_cases hc : c <;> simp [hc, h]

theorem Join_of_length (l : List String) (sep : String) :
    (if l.length > 0 then Join l sep else "") = Join l sep := by
  cases l with
  | nil => rfl
  | cons a rest => simp

theorem validateBook_eq_Join (b : Book) : validateBook b = Join (violations b) "; " := by
  unfold validateBook violations
  rw [checkRequiredString_Title, checkRequiredString_Author, checkRequiredString_Publisher,
    checkValidDate_PublishDate, checkRangedInt_Rating, checkEnumeratedString_Status]
  simp only []
  rw [appendIfSet_ite _ _ _ (by decide), appendIfSet_ite _ _ _ (by decide),
    appendIfSet_ite _ _ _ (by decide), appendIfSet_ite _ _ _ (by decide),
    appendIfSet_ite _ _ _ (by decide), appendIfSet_ite _ _ _ (by decide), Join_of_length,
    List.nil_append]

theorem Join_ne_empty (a : String) (rest : List String) (sep : String) (h : a ≠ "") :
    Join (a :: rest) sep ≠ "" := by
  have hd : a.data ≠ [] := fun hnil => h (String.ext hnil)
  cases rest with
  | nil => simpa [Join] using h
  | cons b rest =>
    intro hj
    have := congrArg String.data hj
    simp [Join, String.data_append, hd] at this

theorem violations_nonempty (b : Book) : ∀ m ∈ violations b, m ≠ "" := by
  intro m hm
  unfold violations at hm
  simp only [List.mem_append] at hm
  rcases hm with ((((hm | hm) | hm) | hm) | hm) | hm <;>
  · split at hm
    · rw [List.mem_singleton] at hm
      subst hm
      decide
    · simp at hm

theorem validateBook_empty_iff (b : Book) : validateBook b = "" ↔ violations b = [] := by
  rw [validateBook_eq_Join]
  constructor
  · intro h
    cases hv : violations b with
    | nil => rfl
    | cons a rest =>
      rw [hv] at h
      exact absurd h (Join_ne_empty a rest "; "
        (violations_nonempty b a (by rw [hv]; exact List.mem_cons_self a rest)))
  · intro h
    rw [h]
    rfl

theorem violations_nil_iff (b : Book) :
    violations b = [] ↔
      TrimSpace b.Title ≠ "" ∧ TrimSpace b.Author ≠ "" ∧ TrimSpace b.Publisher ≠ "" ∧
      b.PublishDate.Unix ≠ 0 ∧ (1 ≤ b.Rating ∧ b.Rating ≤ 3) ∧
      (b.Status = "CheckedIn" ∨ b.Status = "CheckedOut") := by
  unfold violations
  by_cases h1 : TrimSpace b.Title = "" <;> by_cases h2 : TrimSpace b.Author = "" <;>
  by_cases h3 : TrimSpace b.Publisher = "" <;> by_cases h4 : b.PublishDate.Unix = 0 <;>
  by_cases h5 : (b.Rating < 1 ∨ b.Rating > 3) <;>
  by_cases h6 : (b.Status ≠ "CheckedIn" ∧ b.Status ≠ "CheckedOut") <;>
  simp only [h1, h2, h3, h4, h5, h6, if_true, if_false, List.append_nil, List.nil_append,
    ne_eq, not_true_eq_false, not_false_eq_true, false_and, and_false, true_and, and_true,
    List.cons_append, reduceCtorEq, false_iff, true_iff, not_and] <;>
  first
    | omega
    | (push_neg at h5 h6; constructor; omega; tauto)
    | (intros; tauto)

/-- C1: validateBook runs all six checks and returns the messages of the
checks that fired, in the order Title, Author, Publisher, Publish Date,
Rating, Status, joined by "; " with no separator before or after; the
result is empty exactly when no check fired; with title, author and
publisher blank and the rest valid it is the three "present and not
empty" messages. -/
theorem validateBook_joins_fired_checks (b : Book) :
    validateBook b = "; ".intercalate (violations b) ∧
    (validateBook b = "" ↔ violations b = []) ∧
    (TrimSpace b.Title = "" → TrimSpace b.Author = "" → TrimSpace b.Publisher = "" →
      b.PublishDate.Unix ≠ 0 → 1 ≤ b.Rating → b.Rating ≤ 3 →
      (b.Status = "CheckedIn" ∨ b.Status = "CheckedOut") →
      validateBook b = "Value must be present and not empty: Title; Value must be present and not empty: Author; Value must be present and not empty: Publisher") := by
  refine ⟨?_, validateBook_empty_iff b, ?_⟩
  · rw [validateBook_eq_Join, Join_eq_intercalate]
  · intro h1 h2 h3 h4 h5 h6 h7
    have h8 : ¬ (b.Rating < 1 ∨ b.Rating > 3) := by omega
    have h9 : ¬ (b.Status ≠ "CheckedIn" ∧ b.Status ≠ "CheckedOut") := by tauto
    rw [validateBook_eq_Join]
    unfold violations
    rw [if_pos h1, if_pos h2, if_pos h3, if_neg h4, if_neg h8, if_neg h9]
    rfl

theorem validateBook_joins_fired_checks_witness :
    validateBook blankThree = "Value must be present and not empty: Title; Value must be present and not empty: Author; Value must be present and not empty: Publisher" :=
  (validateBook_joins_fired_checks blankThree).2.2 (by decide) (by decide) (by decide)
    (by decide) (by decide) (by decide) (by decide)

/-- C2: for a book whose publish date the date rule does not flag,
validateBook returns the empty string exactly when title, author and
publisher are non-empty after trimming, the rating lies in 1..3 and the
status is "CheckedIn" or "CheckedOut"; when only the rating is out of
range the result is the rating message alone, when only the status is
outside the set it is the status message alone. -/
theorem validateBook_accepts_iff (b : Book)
    (hdate : checkValidDate "Publish Date" b.PublishDate = "") :
    (validateBook b = "" ↔
      TrimSpace b.Title ≠ "" ∧ TrimSpace b.Author ≠ "" ∧ TrimSpace b.Publisher ≠ "" ∧
      (1 ≤ b.Rating ∧ b.Rating ≤ 3) ∧ (b.Status = "CheckedIn" ∨ b.Status = "CheckedOut")) ∧
    (TrimSpace b.Title ≠ "" → TrimSpace b.Author ≠ "" → TrimSpace b.Publisher ≠ "" →
      (b.Status = "CheckedIn" ∨ b.Status = "CheckedOut") → ¬ (1 ≤ b.Rating ∧ b.Rating ≤ 3) →
      validateBook b = "Value must be in specified range: Rating (1-3)") ∧
    (TrimSpace b.Title ≠ "" → TrimSpace b.Author ≠ "" → TrimSpace b.Publisher ≠ "" →
      (1 ≤ b.Rating ∧ b.Rating ≤ 3) → ¬ (b.Status = "CheckedIn" ∨ b.Status = "CheckedOut") →
      validateBook b = "Value must be in specified set: Status (CheckedIn,CheckedOut)") := by
  have h4 : b.PublishDate.Unix ≠ 0 := by
    intro h0
    rw [checkValidDate_PublishDate, if_pos h0] at hdate
    exact absurd hdate (by decide)
  refine ⟨?_, ?_, ?_⟩
  · rw [validateBook_empty_iff, violations_nil_iff]
    tauto
  · intro h1 h2 h3 h7 h5
    have h8 : b.Rating < 1 ∨ b.Rating > 3 := by omega
    have h9 : ¬ (b.Status ≠ "CheckedIn" ∧ b.Status ≠ "CheckedOut") := by tauto
    rw [validateBook_eq_Join]
    unfold violations
    rw [if_neg h1, if_neg h2, if_neg h3, if_neg h4, if_pos h8, if_neg h9]
    rfl
  · intro h1 h2 h3 h5 h7
    have h8 : ¬ (b.Rating < 1 ∨ b.Rating > 3) := by omega
    have h9 : b.Status ≠ "CheckedIn" ∧ b.Status ≠ "CheckedOut" := by tauto
    rw [validateBook_eq_Join]
    unfold violations
    rw [if_neg h1, if_neg h2, if_neg h3, if_neg h4, if_neg h8, if_pos h9]
    rfl

theorem validateBook_accepts_iff_witness :
    checkValidDate "Publish Date" wrinkle.PublishDate = "" ∧
    validateBook wrinkle = "" ∧
    validateBook { wrinkle with Rating := 0 } =
      "Value must be in specified range: Rating (1-3)" ∧
    validateBook { wrinkle with Rating := 4 } =
      "Value must be in specified range: Rating (1-3)" ∧
    validateBook { wrinkle with Status := "CheckedAway" } =
      "Value must be in specified set: Status (CheckedIn,CheckedOut)" :=
  ⟨by decide,
   (validateBook_accepts_iff wrinkle (by decide)).1.2 (by decide),
   (validateBook_accepts_iff { wrinkle with Rating := 0 } (by decide)).2.1
     (by decide) (by decide) (by decide) (by decide) (by decide),
   (validateBook_accepts_iff { wrinkle with Rating := 4 } (by decide)).2.1
     (by decide) (by decide) (by decide) (by decide) (by decide),
   (validateBook_accepts_iff { wrinkle with Status := "CheckedAway" } (by decide)).2.2
     (by decide) (by decide) (by decide) (by decide) (by decide)⟩

/-! ## Responses -/

theorem returnJson_eq (enc : Data → String) (w : Response) (code : Nat) (data : Data) :
    returnJson enc w code data =
      { header := ("Content-Type", "application/json") ::
          w.header.filter (fun kv => kv.1 ≠ "Content-Type"),
        code := code,
        body := w.body ++ (if Marshal enc data = "null" then "" else Marshal enc data) } := by
  unfold returnJson Response.WriteHeader Response.Write Response.Set
  by_cases h : Marshal enc data = "null"
  · simp [h]
  · simp [h]

theorem returnJson_code (enc : Data → String) (w : Response) (code : Nat) (data : Data) :
    (returnJson enc w code data).code = code := by
  rw [returnJson_eq]

/-! ## Creating a book -/

/-- C3: when the validator reports violations for the decoded candidate,
CreateBook answers 400 with the error "Invalid data: " followed by the
validator's text, asks for no identifier and calls no insert, so the store
is as before; whenever CreateBook changes the store or calls anything, the
payload decoded to a candidate for which the validator returned the empty
string. -/
theorem CreateBook_invalid_data (enc : Data → String) (w : Response) (s : Store)
    (fault : Option String) (c : Book) (fresh : ObjectId) (h : validateBook c ≠ "") :
    CreateBook enc w s fault (some c) fresh =
      .responded
        (returnJson enc w 400 (.strings [("error", "Invalid data: " ++ validateBook c)])) s ∧
    (returnJson enc w 400 (.strings [("error", "Invalid data: " ++ validateBook c)])).code
      = 400 ∧
    (CreateBook enc w s fault (some c) fresh).store = s ∧
    (∀ (payload : Option Book) (s0 : Store) (fault0 : Option String) (fresh0 : ObjectId),
      (CreateBook enc w s0 fault0 payload fresh0).store ≠ s0 →
      ∃ c0, payload = some c0 ∧ validateBook c0 = "") := by
  have hrun : CreateBook enc w s fault (some c) fresh =
      .responded
        (returnJson enc w 400 (.strings [("error", "Invalid data: " ++ validateBook c)])) s := by
    unfold CreateBook
    simp only [ne_eq, h, not_false_eq_true, if_true]
    rfl
  refine ⟨hrun, ?_, ?_, ?_⟩
  · exact returnJson_code _ _ _ _
  · rw [hrun]; rfl
  · intro payload s0 fault0 fresh0 hne
    cases payload with
    | none => exact absurd rfl hne
    | some c0 =>
      refine ⟨c0, rfl, ?_⟩
      by_contra hv
      apply hne
      unfold CreateBook
      simp only [ne_eq, hv, not_false_eq_true, if_true]
      rfl

theorem CreateBook_invalid_data_witness :
    validateBook blankThree ≠ "" ∧
    CreateBook sampleEnc NewRecorder Store.empty none (some blankThree) sampleId =
      .responded (returnJson sampleEnc NewRecorder 400 (.strings [("error",
        "Invalid data: " ++ validateBook blankThree)])) Store.empty :=
  ⟨by decide,
   (CreateBook_invalid_data sampleEnc NewRecorder Store.empty none blankThree sampleId
     (by decide)).1⟩

/-- C4: when the decoded candidate passes the validator and the insert
succeeds, CreateBook answers 201 with the candidate carrying the generated
identifier in place of whatever identifier it came with, all other fields
as in the candidate, and that same record is the one given to the
repository insert. -/
theorem CreateBook_created (enc : Data → String) (w : Response) (s : Store)
    (fault : Option String) (c : Book) (fresh : ObjectId) (hvalid : validateBook c = "")
    (hins : (Insert (NewObjectId s fresh).2 fault { c with ID := fresh }).1 = none) :
    CreateBook enc w s fault (some c) fresh =
      .responded (returnJson enc w 201 (.book ⟨fresh, c.Title, c.Author, c.Publisher,
        c.PublishDate, c.Rating, c.Status⟩))
        (Insert (NewObjectId s fresh).2 fault { c with ID := fresh }).2 ∧
    (returnJson enc w 201 (.book ⟨fresh, c.Title, c.Author, c.Publisher,
        c.PublishDate, c.Rating, c.Status⟩)).code = 201 ∧
    (CreateBook enc w s fault (some c) fresh).store.calls =
      s.calls ++ [.NewObjectId, .Insert ⟨fresh, c.Title, c.Author, c.Publisher,
        c.PublishDate, c.Rating, c.Status⟩] ∧
    (CreateBook enc w s fault (some c) fresh).store.docs =
      s.docs ++ [⟨fresh, c.Title, c.Author, c.Publisher, c.PublishDate, c.Rating,
        c.Status⟩] := by
  have hrun : CreateBook enc w s fault (some c) fresh =
      .responded (returnJson enc w 201 (.book ⟨fresh, c.Title, c.Author, c.Publisher,
        c.PublishDate, c.Rating, c.Status⟩))
        (Insert (NewObjectId s fresh).2 fault { c with ID := fresh }).2 := by
    unfold CreateBook
    simp only [ne_eq, hvalid, not_true_eq_false, if_false]
    generalize hres : Insert (NewObjectId s fresh).2 fault { c with ID := fresh } = res at hins
    obtain ⟨err, s1⟩ := res
    simp only at hins
    subst hins
    simp only [NewObjectId] at hres ⊢
    rw [hres]
    rfl
  refine ⟨hrun, ?_, ?_, ?_⟩
  · exact returnJson_code _ _ _ _
  all_goals
    rw [hrun]
    simp only [Outcome.store]
    unfold Insert NewObjectId Store.note at hins ⊢
    cases fault with
    | some text => simp at hins
    | none =>
      simp only at hins ⊢
      split at hins
      · simp at hins
      · rename_i hany
        simp only [hany]
        simp
  
theorem CreateBook_created_witness :
    validateBook { wrinkle with ID := [1, 2, 3] } = "" ∧
    (CreateBook sampleEnc NewRecorder Store.empty none
      (some { wrinkle with ID := [1, 2, 3] }) sampleId).store.docs =
      [{ wrinkle with ID := sampleId }] :=
  ⟨by decide,
   (CreateBook_created sampleEnc NewRecorder Store.empty none { wrinkle with ID := [1, 2, 3] }
     sampleId (by decide) (by decide)).2.2.2⟩

/-! ## Stored records -/

theorem Checked_of_valid (c : Book) (fresh : ObjectId) (hfresh : fresh ≠ [])
    (h : validateBook c = "") : Checked { c with ID := fresh } := by
  rw [validateBook_empty_iff, violations_nil_iff] at h
  obtain ⟨h1, h2, h3, h4, h5, h6⟩ := h
  refine ⟨hfresh, h1, h2, h3, ?_, h5.1, h5.2, h6⟩
  intro he
  apply h4
  show c.PublishDate.Unix = 0
  rw [show c.PublishDate = Time.epoch from he]
  rfl

theorem mem_removeFirst (oid : ObjectId) (l : List Book) (b : Book)
    (h : b ∈ removeFirst oid l) : b ∈ l := by
  induction l with
  | nil => simp [removeFirst] at h
  | cons a rest ih =>
    unfold removeFirst at h
    split at h
    · exact List.mem_cons_of_mem _ h
    · rcases List.mem_cons.1 h with h | h
      · exact h ▸ List.mem_cons_self _ _
      · exact List.mem_cons_of_mem _ (ih h)

theorem FindById_docs (s s1 : Store) (fault : Option String) (id : String)
    (r : Book × Option DbError) (h : FindById s fault id = some (r, s1)) :
    s1.docs = s.docs := by
  unfold FindById Store.note at h
  cases hoid : ObjectIdHex id with
  | none => simp [hoid] at h
  | some oid =>
    simp only [hoid] at h
    cases fault with
    | some text =>
      simp only [Option.some.injEq, Prod.mk.injEq] at h
      rw [← h.2]
    | none =>
      simp only at h
      split at h <;>
      · simp only [Option.some.injEq, Prod.mk.injEq] at h
        rw [← h.2]

theorem DeleteById_docs (s s1 : Store) (fault : Option String) (id : String)
    (e : Option DbError) (h : DeleteById s fault id = some (e, s1)) :
    ∀ b ∈ s1.docs, b ∈ s.docs := by
  unfold DeleteById Store.note at h
  cases hoid : ObjectIdHex id with
  | none => simp [hoid] at h
  | some oid =>
    simp only [hoid] at h
    cases fault with
    | some text =>
      simp only [Option.some.injEq, Prod.mk.injEq] at h
      rw [← h.2]
      exact fun b hb => hb
    | none =>
      simp only at h
      split at h <;> simp only [Option.some.injEq, Prod.mk.injEq] at h <;> rw [← h.2]
      · exact fun b hb => mem_removeFirst oid s.docs b hb
      · exact fun b hb => hb

theorem Insert_docs (s s1 : Store) (fault : Option String) (item : Book)
    (e : Option DbError) (h : Insert s fault item = (e, s1)) :
    s1.docs = s.docs ∨ s1.docs = s.docs ++ [item] := by
  unfold Insert Store.note at h
  cases fault with
  | some text =>
    simp only [Prod.mk.injEq] at h
    rw [← h.2]
    exact Or.inl rfl
  | none =>
    simp only at h
    split at h <;> simp only [Prod.mk.injEq] at h <;> rw [← h.2]
    · exact Or.inl rfl
    · exact Or.inr rfl

theorem mem_replaceFirst (oid : ObjectId) (item : Book) (l : List Book) (b : Book)
    (h : b ∈ replaceFirst oid item l) : b = item ∨ b ∈ l := by
  induction l with
  | nil => simp [replaceFirst] at h
  | cons a rest ih =>
    unfold replaceFirst at h
    split at h
    · rcases List.mem_cons.1 h with h | h
      · exact Or.inl h
      · exact Or.inr (List.mem_cons_of_mem _ h)
    · rcases List.mem_cons.1 h with h | h
      · exact Or.inr (h ▸ List.mem_cons_self _ _)
      · rcases ih h with h | h
        · exact Or.inl h
        · exact Or.inr (List.mem_cons_of_mem _ h)

theorem Update_docs (s s1 : Store) (fault : Option String) (item : Book)
    (e : Option DbError) (h : Update s fault item = (e, s1)) :
    ∀ b ∈ s1.docs, b = item ∨ b ∈ s.docs := by
  unfold Update Store.note at h
  cases fault with
  | some text =>
    simp only [Prod.mk.injEq] at h
    rw [← h.2]
    exact fun b hb => Or.inr hb
  | none =>
    simp only at h
    split at h <;> simp only [Prod.mk.injEq] at h <;> rw [← h.2]
    · exact fun b hb => mem_replaceFirst item.ID item s.docs b hb
    · exact fun b hb => Or.inr hb

theorem serve_keeps_Checked (enc : Data → String) (s : Store) (r : Request)
    (hr : r.regular = true) (hs : ∀ b ∈ s.docs, Checked b) :
    ∀ b ∈ (serve enc s r).store.docs, Checked b := by
  cases r with
  | list fault =>
    cases fault <;> exact hs
  | get id fault =>
    simp only [serve, FindBook]
    split
    · exact hs
    · cases hres : FindById s fault id with
      | none => exact hs
      | some res =>
        obtain ⟨⟨item, err⟩, s1⟩ := res
        have hd := FindById_docs s s1 fault id _ hres
        cases err <;> simp only [Outcome.store, hd] <;> exact hs
  | create payload fresh fault =>
    have hfresh : fresh ≠ [] := by simpa [Request.regular] using hr
    cases payload with
    | none => exact hs
    | some c =>
      simp only [serve, CreateBook]
      split
      · exact hs
      · rename_i hv
        have hvalid : validateBook c = "" := by simpa using hv
        have hc := Checked_of_valid c fresh hfresh hvalid
        cases hres : Insert (NewObjectId s fresh).2 fault { c with ID := fresh } with
        | mk err s1 =>
          have hd := Insert_docs _ s1 fault _ err hres
          simp only [NewObjectId, Store.note] at hres hd
          simp only [NewObjectId, Store.note, hres]
          have key : ∀ b ∈ s1.docs, Checked b := by
            intro b hb
            rcases hd with hd | hd
            · rw [hd] at hb; exact hs b hb
            · rw [hd, List.mem_append, List.mem_singleton] at hb
              rcases hb with hb | hb
              · exact hs b hb
              · exact hb ▸ hc
          cases err <;> exact key
  | replace payload fault =>
    cases payload with
    | none => exact hs
    | some c =>
      have hc : Checked c := by simpa [Request.regular] using hr
      simp only [serve, UpdateBook]
      cases hres : Update s fault c with
      | mk err s1 =>
        have hd := Update_docs s s1 fault c err hres
        have key : ∀ b ∈ s1.docs, Checked b := by
          intro b hb
          rcases hd b hb with h | h
          · exact h ▸ hc
          · exact hs b h
        cases err <;> exact key
  | delete id fault =>
    simp only [serve, DeleteBook]
    split
    · exact hs
    · cases hres : DeleteById s fault id with
      | none => exact hs
      | some res =>
        obtain ⟨err, s1⟩ := res
        have hd := DeleteById_docs s s1 fault id _ hres
        cases err <;> simp only [Outcome.store] <;> exact fun b hb => hs b (hd b hb)

theorem run_keeps_Checked (enc : Data → String) (reqs : List Request) (s : Store)
    (hr : ∀ r ∈ reqs, r.regular = true) (hs : ∀ b ∈ s.docs, Checked b) :
    ∀ b ∈ (run enc s reqs).docs, Checked b := by
  induction reqs generalizing s with
  | nil => exact hs
  | cons r rest ih =>
    apply ih
    · intro r0 h0; exact hr r0 (List.mem_cons_of_mem _ h0)
    · exact serve_keeps_Checked enc s r (hr r (List.mem_cons_self _ _)) hs

theorem replace_stores_unvalidated (enc : Data → String) :
    (run enc Store.empty
      [.create (some wrinkle) sampleId none, .replace (some unvalidated) none]).docs
      = [unvalidated] ∧
    ¬ Constrained unvalidated ∧
    validateBook unvalidated =
      "Value must be present and not empty: Title; Value must be in specified range: Rating (1-3); Value must be in specified set: Status (CheckedIn,CheckedOut)" := by
  refine ⟨?_, by decide, by decide⟩
  rfl

/-- C5, as stated, fails: a create followed by a replace under the same
identifier leaves in the collection a record with a blank title, rating 7
and an unknown status, since UpdateBook writes the decoded record without
validating it; and a single create of a payload without a date, which the
date rule lets pass, leaves a record whose publish date is not populated. -/
theorem stored_record_breaks_constraints :
    (¬ ∀ b ∈ (run sampleEnc Store.empty
        [.create (some wrinkle) sampleId none, .replace (some unvalidated) none]).docs,
      Constrained b) ∧
    (¬ ∀ b ∈ (run sampleEnc Store.empty [.create (some undated) sampleId none]).docs,
      Constrained b) := by
  decide

/-- C5, amended: starting from an empty collection, after any sequence of
list, get, create, replace and delete requests in which every record sent
to replace itself meets the constraints (replace stores what it is sent,
unvalidated), every record held in the collection has an identifier, title,
author and publisher non-empty after trimming, a publish date other than
the Unix epoch zero instant, a rating in 1..3 and a status "CheckedIn" or
"CheckedOut". Whether the publish date is populated is left open. -/
theorem stored_records_Checked (enc : Data → String) (reqs : List Request)
    (hr : ∀ r ∈ reqs, r.regular = true) :
    ∀ b ∈ (run enc Store.empty reqs).docs,
      b.ID ≠ [] ∧ TrimSpace b.Title ≠ "" ∧ TrimSpace b.Author ≠ "" ∧
      TrimSpace b.Publisher ≠ "" ∧ b.PublishDate ≠ Time.epoch ∧ 1 ≤ b.Rating ∧ b.Rating ≤ 3 ∧
      (b.Status = "CheckedIn" ∨ b.Status = "CheckedOut") :=
  run_keeps_Checked enc reqs Store.empty hr (fun _ hb => absurd hb (List.not_mem_nil _))

theorem stored_records_Checked_witness :
    (run sampleEnc Store.empty
      [.list none, .create (some wrinkle) sampleId none, .get sampleHex none,
        .replace (some updated) none, .create (some undated) [1] none,
        .delete nonHexId none]).docs = [updated, { undated with ID := [1] }] ∧
    ∀ b ∈ (run sampleEnc Store.empty
      [.list none, .create (some wrinkle) sampleId none, .get sampleHex none,
        .replace (some updated) none, .create (some undated) [1] none,
        .delete nonHexId none]).docs,
      b.ID ≠ [] ∧ TrimSpace b.Title ≠ "" ∧ TrimSpace b.Author ≠ "" ∧
      TrimSpace b.Publisher ≠ "" ∧ b.PublishDate ≠ Time.epoch ∧ 1 ≤ b.Rating ∧ b.Rating ≤ 3 ∧
      (b.Status = "CheckedIn" ∨ b.Status = "CheckedOut") :=
  ⟨by decide, stored_records_Checked sampleEnc _ (by decide)⟩

/-! ## Identifiers -/

/-- C6, as stated, fails at the empty string: validateId returns the empty
string for it although its length is not 24. -/
theorem validateId_accepts_empty : ¬ (validateId "" = "" ↔ len "" = 24) := by
  decide

/-- C6, amended: for every non-empty string s, validateId returns the
empty string exactly when s has length 24 (in bytes); for any other
non-empty s it returns s itself, and FindBook and DeleteBook answer 400
with the error "Invalid ID: " followed by s, the store untouched and
nothing called. -/
theorem validateId_nonempty (s : String) (hs : s ≠ "") :
    (validateId s = "" ↔ len s = 24) ∧
    (len s ≠ 24 → validateId s = s ∧
      ∀ (enc : Data → String) (w : Response) (st : Store) (fault : Option String),
        FindBook enc w st fault s =
          .responded (returnJson enc w 400 (.strings [("error", "Invalid ID: " ++ s)])) st ∧
        DeleteBook enc w st fault s =
          .responded (returnJson enc w 400 (.strings [("error", "Invalid ID: " ++ s)])) st) := by
  constructor
  · unfold validateId
    by_cases h : len s = 24
    · simp [h]
    · simp [h, hs]
  · intro h
    have hv : validateId s = s := by unfold validateId; simp [h]
    refine ⟨hv, ?_⟩
    intro enc w st fault
    unfold FindBook DeleteBook
    simp only [hv, ne_eq, hs, not_false_eq_true, if_true]
    exact ⟨rfl, rfl⟩

theorem validateId_nonempty_witness :
    "asdf" ≠ "" ∧ len "asdf" ≠ 24 ∧ validateId "asdf" = "asdf" ∧
    FindBook sampleEnc NewRecorder Store.empty none "asdf" =
      .responded ⟨[("Content-Type", "application/json")], 400,
        "\x7b\"error\":\"Invalid ID: asdf\"\x7d"⟩ Store.empty :=
  ⟨by decide, by decide, ((validateId_nonempty "asdf" (by decide)).2 (by decide)).1,
   (((validateId_nonempty "asdf" (by decide)).2 (by decide)).2 sampleEnc NewRecorder
     Store.empty none).1.trans (by decide)⟩

theorem FindBook_not_found (enc : Data → String) (w : Response) (s : Store)
    (fault : Option String) (id : String) (oid : ObjectId) (hlen : len id = 24)
    (hhex : ObjectIdHex id = some oid) (hmiss : ∀ b ∈ s.docs, b.ID ≠ oid) :
    FindBook enc w s fault id =
      .responded (returnJson enc w 400 (.strings [("error", "ID not found: " ++ id)]))
        ⟨s.docs, s.calls ++ [.FindId oid]⟩ := by
  have hv : validateId id = "" := by unfold validateId; simp [hlen]
  have hfind : s.docs.find? (fun b => b.ID = oid) = none := by
    rw [List.find?_eq_none]
    intro b hb
    simpa using hmiss b hb
  unfold FindBook FindById Store.note
  simp only [hv, ne_eq, not_true_eq_false, if_false, hhex]
  cases fault with
  | some text => rfl
  | none => simp only [hfind]; rfl

theorem DeleteBook_not_found (enc : Data → String) (w : Response) (s : Store)
    (fault : Option String) (id : String) (oid : ObjectId) (hlen : len id = 24)
    (hhex : ObjectIdHex id = some oid) (hmiss : ∀ b ∈ s.docs, b.ID ≠ oid) :
    DeleteBook enc w s fault id =
      .responded (returnJson enc w 400 (.strings [("error", "ID not found: " ++ id)]))
        ⟨s.docs, s.calls ++ [.RemoveId oid]⟩ := by
  have hv : validateId id = "" := by unfold validateId; simp [hlen]
  have hany : s.docs.any (fun b => b.ID = oid) = false := by
    rw [List.any_eq_false]
    intro b hb
    simpa using hmiss b hb
  unfold DeleteBook DeleteById Store.note
  simp only [hv, ne_eq, not_true_eq_false, if_false, hhex]
  cases fault with
  | some text => rfl
  | none => simp only [hany]; rfl

/-- C7: for the 24-character identifier "zzzzzzzzzzzzzzzzzzzzzzzz", which
passes validateId, FindBook and DeleteBook do not answer 400 "ID not
found": bson.ObjectIdHex panics inside the repository call and no response
is written. -/
theorem non_hex_id_panics (enc : Data → String) (w : Response) (s : Store)
    (fault : Option String) :
    len nonHexId = 24 ∧ validateId nonHexId = "" ∧ ObjectIdHex nonHexId = none ∧
    FindBook enc w s fault nonHexId = .panicked s ∧
    DeleteBook enc w s fault nonHexId = .panicked s := by
  have hv : validateId nonHexId = "" := by decide
  have hh : ObjectIdHex nonHexId = none := by decide
  refine ⟨by decide, hv, hh, ?_, ?_⟩
  · unfold FindBook FindById
    simp only [hv, ne_eq, not_true_eq_false, if_false, hh]
  · unfold DeleteBook DeleteById
    simp only [hv, ne_eq, not_true_eq_false, if_false, hh]

/-- C8: with the well-formed identifier 5acb40295843ef00e69e28d2 and the
driver failing with "EOF", an error that is not the no-match error,
FindBook and DeleteBook answer 400 "ID not found" where 500 with the
driver's text is due, the answer AllBooks, CreateBook and UpdateBook give
to a repository error through returnInternalError. -/
theorem driver_failure_answers_400 :
    FindById Store.empty (some "EOF") sampleHex =
      some ((Book.zero, some (.driver "EOF")), ⟨[], [.FindId sampleId]⟩) ∧
    DbError.driver "EOF" ≠ DbError.ErrNotFound ∧
    FindBook sampleEnc NewRecorder Store.empty (some "EOF") sampleHex =
      .responded ⟨[("Content-Type", "application/json")], 400,
        "\x7b\"error\":\"ID not found: 5acb40295843ef00e69e28d2\"\x7d"⟩
        ⟨[], [.FindId sampleId]⟩ ∧
    DeleteBook sampleEnc NewRecorder Store.empty (some "EOF") sampleHex =
      .responded ⟨[("Content-Type", "application/json")], 400,
        "\x7b\"error\":\"ID not found: 5acb40295843ef00e69e28d2\"\x7d"⟩
        ⟨[], [.RemoveId sampleId]⟩ := by
  decide

/-- What FindBook and DeleteBook do with a repository error: whichever
error the call returns for a well-formed identifier, the no-match error or
any other, the answer is 400 with "ID not found: " followed by the
identifier, and no path of the two handlers reaches returnInternalError. -/
theorem any_repository_error_is_not_found (enc : Data → String) (w : Response) (s : Store)
    (fault : Option String) (id : String) (hid : validateId id = "") :
    (∀ item err s1, FindById s fault id = some ((item, some err), s1) →
      FindBook enc w s fault id =
        .responded (returnJson enc w 400 (.strings [("error", "ID not found: " ++ id)])) s1) ∧
    (∀ err s1, DeleteById s fault id = some (some err, s1) →
      DeleteBook enc w s fault id =
        .responded (returnJson enc w 400 (.strings [("error", "ID not found: " ++ id)])) s1) ∧
    (∀ r s1, FindBook enc w s fault id = .responded r s1 → r.code ≠ 500) ∧
    (∀ r s1, DeleteBook enc w s fault id = .responded r s1 → r.code ≠ 500) := by
  refine ⟨?_, ?_, ?_, ?_⟩
  · intro item err s1 h
    unfold FindBook
    simp only [hid, ne_eq, not_true_eq_false, if_false, h]
    rfl
  · intro err s1 h
    unfold DeleteBook
    simp only [hid, ne_eq, not_true_eq_false, if_false, h]
    rfl
  · intro r s1 h
    unfold FindBook at h
    simp only [hid, ne_eq, not_true_eq_false, if_false] at h
    cases hres : FindById s fault id with
    | none => simp [hres] at h
    | some res =>
      obtain ⟨⟨item, err⟩, s2⟩ := res
      cases err <;> simp only [hres, Outcome.responded.injEq] at h <;> rw [← h.1] <;>
        simp [returnData, returnNotFound, returnError, returnJson_code, StatusOK,
          StatusBadRequest]
  · intro r s1 h
    unfold DeleteBook at h
    simp only [hid, ne_eq, not_true_eq_false, if_false] at h
    cases hres : DeleteById s fault id with
    | none => simp [hres] at h
    | some res =>
      obtain ⟨err, s2⟩ := res
      cases err <;> simp only [hres, Outcome.responded.injEq] at h <;> rw [← h.1] <;>
        simp [returnSuccess, returnNotFound, returnError, returnJson_code, StatusOK,
          StatusBadRequest]

theorem any_repository_error_is_not_found_witness :
    validateId sampleHex = "" ∧
    FindBook sampleEnc NewRecorder Store.empty (some "EOF") sampleHex =
      .responded (returnJson sampleEnc NewRecorder 400
        (.strings [("error", "ID not found: " ++ sampleHex)])) ⟨[], [.FindId sampleId]⟩ :=
  ⟨by decide,
   (any_repository_error_is_not_found sampleEnc NewRecorder Store.empty (some "EOF") sampleHex
     (by decide)).1 Book.zero (.driver "EOF") ⟨[], [.FindId sampleId]⟩ (by decide)⟩

/-! ## The JSON response and the date rule -/

/-- C9: returnJson sets Content-Type to application/json, writes the
status code, and writes no body when the marshalled value is the text
"null", the marshalled bytes otherwise; so AllBooks on an empty collection,
whose list is the nil slice, answers 200 with an empty body. -/
theorem returnJson_null_is_empty_body (enc : Data → String) (w : Response) (code : Nat)
    (data : Data) (calls : List Call) :
    returnJson enc w code data =
      { header := ("Content-Type", "application/json") ::
          w.header.filter (fun kv => kv.1 ≠ "Content-Type"),
        code := code,
        body := w.body ++ (if Marshal enc data = "null" then "" else Marshal enc data) } ∧
    (returnJson enc NewRecorder code data).body =
      (if Marshal enc data = "null" then "" else Marshal enc data) ∧
    AllBooks enc NewRecorder ⟨[], calls⟩ none =
      .responded ⟨[("Content-Type", "application/json")], 200, ""⟩
        ⟨[], calls ++ [.FindAll]⟩ := by
  refine ⟨returnJson_eq enc w code data, ?_, ?_⟩
  · rw [returnJson_eq]
    show "" ++ _ = _
    rw [String.empty_append]
  · rfl

/-- C10, as stated, fails: the instant half a second after the epoch is
not the epoch zero instant, yet the date check flags it. -/
theorem checkValidDate_flags_half_second :
    ¬ (checkValidDate "Publish Date" halfPastEpoch =
        "Value must be a valid date (ISO 8601): Publish Date" ↔
      halfPastEpoch = Time.epoch) := by
  decide

/-- C10, amended: the date check, and with it rule 4 of validateBook,
produces "Value must be a valid date (ISO 8601): Publish Date" exactly for
the instants of the first second of the epoch, from 1970-01-01T00:00:00Z
up to but not including 1970-01-01T00:00:01Z (the whole seconds since the
epoch are zero); every other instant passes. -/
theorem checkValidDate_first_second (t : Time) (ht : t.nsec < 1000000000) :
    (checkValidDate "Publish Date" t = "Value must be a valid date (ISO 8601): Publish Date" ↔
      0 ≤ t.sinceEpoch ∧ t.sinceEpoch < 1000000000) ∧
    (¬ (0 ≤ t.sinceEpoch ∧ t.sinceEpoch < 1000000000) →
      checkValidDate "Publish Date" t = "") ∧
    (∀ b : Book, b.PublishDate = t →
      ("Value must be a valid date (ISO 8601): Publish Date" ∈ violations b ↔
        0 ≤ t.sinceEpoch ∧ t.sinceEpoch < 1000000000)) := by
  have key : t.Unix = 0 ↔ 0 ≤ t.sinceEpoch ∧ t.sinceEpoch < 1000000000 := by
    unfold Time.Unix Time.sinceEpoch
    constructor
    · intro h; rw [h]; omega
    · intro h; omega
  refine ⟨?_, ?_, ?_⟩
  · rw [checkValidDate_PublishDate, ← key]
    by_cases h : t.Unix = 0
    · simp [h]
    · simp only [h, if_false, iff_false]
      decide
  · intro h
    rw [checkValidDate_PublishDate, if_neg (fun h0 => h (key.1 h0))]
  · intro b hb
    rw [← key, ← hb]
    unfold violations
    simp only [List.mem_append]
    constructor
    · intro h
      rcases h with ((((h | h) | h) | h) | h) | h <;> split at h <;>
        first
          | (simp only [List.mem_singleton] at h; exact absurd h (by decide))
          | (simp only [List.not_mem_nil] at h)
          | assumption
    · intro h
      refine Or.inl (Or.inl (Or.inr ?_))
      rw [if_pos h]
      exact List.mem_singleton.2 rfl

theorem checkValidDate_first_second_witness :
    halfPastEpoch.nsec < 1000000000 ∧
    checkValidDate "Publish Date" halfPastEpoch =
      "Value must be a valid date (ISO 8601): Publish Date" :=
  ⟨by decide, (checkValidDate_first_second halfPastEpoch (by decide)).1.2 (by decide)⟩

/-! ## Replacing a book -/

theorem Update_calls (s : Store) (fault : Option String) (item : Book) :
    (Update s fault item).2.calls = s.calls ++ [.UpdateId item.ID item] := by
  unfold Update Store.note
  cases fault with
  | some text => rfl
  | none =>
    simp only
    split <;> rfl

theorem UpdateBook_eq (enc : Data → String) (w : Response) (s : Store)
    (fault : Option String) (b : Book) :
    UpdateBook enc w s fault (some b) =
      match (Update s fault b).1 with
      | some err =>
        .responded (returnJson enc w 500 (.strings [("error", err.Error)])) (Update s fault b).2
      | none =>
        .responded (returnJson enc w 200 (.strings [("result", "success")]))
          (Update s fault b).2 := by
  cases hres : Update s fault b with
  | mk err s1 =>
    simp only [UpdateBook, hres]
    cases err <;> rfl

/-- C11: for a payload that decodes to a book b, whatever the validator
would say of it, UpdateBook makes exactly one repository call, the replace
keyed on b.ID with b unchanged; it answers 200 with the result "success"
when that call reports no error and 500 with the error's text otherwise;
it never answers 400 for a decoded payload, the only 400 being "Invalid
JSON" when the body does not decode, in which case nothing is called. -/
theorem UpdateBook_skips_validator (enc : Data → String) (w : Response) (s : Store)
    (fault : Option String) (b : Book) :
    (UpdateBook enc w s fault (some b)).store = (Update s fault b).2 ∧
    (UpdateBook enc w s fault (some b)).store.calls = s.calls ++ [.UpdateId b.ID b] ∧
    ((Update s fault b).1 = none →
      UpdateBook enc w s fault (some b) =
        .responded (returnJson enc w 200 (.strings [("result", "success")]))
          (Update s fault b).2) ∧
    (∀ err, (Update s fault b).1 = some err →
      UpdateBook enc w s fault (some b) =
        .responded (returnJson enc w 500 (.strings [("error", err.Error)]))
          (Update s fault b).2) ∧
    (∀ r s1, UpdateBook enc w s fault (some b) = .responded r s1 →
      r.code = 200 ∨ r.code = 500) ∧
    (∀ s1, UpdateBook enc w s fault (some b) ≠ .panicked s1) ∧
    UpdateBook enc w s fault none =
      .responded (returnJson enc w 400 (.strings [("error", "Invalid JSON")])) s := by
  have heq := UpdateBook_eq enc w s fault b
  have hstore : (UpdateBook enc w s fault (some b)).store = (Update s fault b).2 := by
    rw [heq]
    cases (Update s fault b).1 <;> rfl
  refine ⟨hstore, ?_, ?_, ?_, ?_, ?_, rfl⟩
  · rw [hstore, Update_calls]
  · intro h
    rw [heq, h]
  · intro err h
    rw [heq, h]
  · intro r s1 h
    rw [heq] at h
    cases herr : (Update s fault b).1 with
    | none =>
      rw [herr] at h
      simp only [Outcome.responded.injEq] at h
      rw [← h.1, returnJson_code]
      exact Or.inl rfl
    | some err =>
      rw [herr] at h
      simp only [Outcome.responded.injEq] at h
      rw [← h.1, returnJson_code]
      exact Or.inr rfl
  · intro s1 h
    rw [heq] at h
    cases herr : (Update s fault b).1 <;> rw [herr] at h <;> exact Outcome.noConfusion h

theorem UpdateBook_skips_validator_witness :
    validateBook unvalidated ≠ "" ∧
    (Update shelf none unvalidated).1 = none ∧
    UpdateBook sampleEnc NewRecorder shelf none (some unvalidated) =
      .responded ⟨[("Content-Type", "application/json")], 200,
        "\x7b\"result\":\"success\"\x7d"⟩
        ⟨[unvalidated], [.UpdateId sampleId unvalidated]⟩ ∧
    UpdateBook sampleEnc NewRecorder shelf (some "EOF") (some unvalidated) =
      .responded ⟨[("Content-Type", "application/json")], 500, "\x7b\"error\":\"EOF\"\x7d"⟩
        ⟨shelf.docs, [.UpdateId sampleId unvalidated]⟩ :=
  ⟨by decide, by decide,
   ((UpdateBook_skips_validator sampleEnc NewRecorder shelf none unvalidated).2.2.1
     (by decide)).trans (by decide),
   ((UpdateBook_skips_validator sampleEnc NewRecorder shelf (some "EOF") unvalidated).2.2.2.1
     (.driver "EOF") (by decide)).trans (by decide)⟩

end Books
